import Mathlib

/-!
Shallow embedding of the dynamic-array container `SimpleVector<Type>` from
`src/simple_vector.h`, together with its free comparison operator `operator==`.

Modelling conventions:

* A container state is a structure holding the buffer contents as a total
  function `items : Nat → α` (slot `j` of the allocated buffer; slots at or
  beyond `capacity` are junk the C++ code never legally reads), the logical
  `size`, the `capacity`, and `isNull`, which records whether the C++ member
  `items_` is the null pointer.  `new Type[n]` yields a non-null pointer even
  for `n = 0` and default-constructs every slot, so allocation is modelled by
  `isNull := false` with fresh slots holding `default`.
* Iterators are plain pointers into the buffer; a position argument
  (`ConstIterator pos`) is modelled by its offset `pos - cbegin()` as a `Nat`,
  `begin()` being offset `0` and `end()` offset `size`.
* `size_` and `capacity_` are `size_t` (64-bit unsigned).  The decrements
  `size_--` in `Erase` and `PopBack` are modelled exactly by `decWrap`, the
  64-bit unsigned decrement, which agrees with `(size + (2^64 - 1)) % 2^64`
  on every `size_t` value (every `Nat` below `2^64`); the wrap at zero is
  reachable only through `PopBack`, whose debug `assert` compiles out in
  release builds — `Erase` faults earlier, see below.  The increments
  `size_++` and the doublings `capacity_ += capacity_` / `size_ * 2` could
  only wrap with at least `2^63` live elements, which no allocation can
  provide, so they are modelled as exact natural-number arithmetic.
* Two spots of the source are embedded as they behave, not as intended.
  First, the spare-capacity branch of `InsertInVector` calls
  `std::move_backward(begin() + position, end(), end())`: the destination
  range ends at `end()`, so it EQUALS the source range `[position, size_)` —
  every move is a self-move-assignment and no element shifts (formally
  undefined when `position < size_`; value-wise the no-op it is for trivially
  copyable types).  Second, `Erase` runs `std::move(pos + 1, end(), pos)`
  before `size_--`; when `pos + 1` lies past `end()` — in particular on an
  empty container — that source range is inverted: undefined behavior that
  faults rather than returning, so `Erase` yields an `Option`, `none`
  standing for the fault.
* `std::move` of elements is modelled value-wise (moved-from slots keep their
  value, as they do for trivially copyable element types); buffers that the
  code frees simply disappear from the state.
* The throwing checked accessor `At` is modelled as `Except String α`; it
  mutates nothing, which the embedding captures by making it a pure function
  of the state.
-/

set_option maxRecDepth 4096

/-- `2^64`, the modulus of `size_t` arithmetic. -/
def w64 : Nat := 2 ^ 64

/-- The 64-bit unsigned decrement `n--`: wraps to `2^64 - 1` at zero;
equal to `(n + (2^64 - 1)) % 2^64` for every `n < 2^64`. -/
def decWrap (n : Nat) : Nat := if n = 0 then w64 - 1 else n - 1

/-- State of a `SimpleVector<α>`: null-ness of `items_`, buffer slot contents,
`size_` and `capacity_`. -/
structure SimpleVector (α : Type) where
  isNull : Bool
  items : Nat → α
  size : Nat
  capacity : Nat

namespace SimpleVector

variable {α : Type} [Inhabited α]

/-- `SimpleVector() noexcept = default;` — `items_ = nullptr, size_ = 0,
capacity_ = 0`. -/
def mkDefault : SimpleVector α :=
  ⟨true, fun _ => default, 0, 0⟩

/-- `explicit SimpleVector(ReserveProxyObj obj)` — allocates
`new Type[obj.GetReserve()]` (non-null even for zero slots, all slots
default-constructed), `size_ = 0`, `capacity_ = obj.GetReserve()`. -/
def mkReserve (n : Nat) : SimpleVector α :=
  ⟨false, fun _ => default, 0, n⟩

/-- `SimpleVector(size_t size, const Type& value = Type{})` — sets
`size_ = capacity_ = size`; returns before allocating when `size == 0`
(buffer stays null), otherwise allocates and fills `[0, size)` with
`value`. -/
def mkFill (n : Nat) (x : α) : SimpleVector α :=
  if n = 0 then ⟨true, fun _ => default, 0, 0⟩
  else ⟨false, fun j => if j < n then x else default, n, n⟩

/-- `SimpleVector(std::initializer_list<Type> init)` — `size_ = capacity_ =
init.size()`; returns before allocating when the list is empty, otherwise
moves the list elements into a fresh buffer in order. -/
def mkInitList (l : List α) : SimpleVector α :=
  if l.isEmpty then ⟨true, fun _ => default, 0, 0⟩
  else ⟨false, fun j => l.getD j default, l.length, l.length⟩

/-- `GetSize()`. -/
def GetSize (v : SimpleVector α) : Nat := v.size

/-- `GetCapacity()`. -/
def GetCapacity (v : SimpleVector α) : Nat := v.capacity

/-- `IsEmpty()`. -/
def IsEmpty (v : SimpleVector α) : Bool := v.size == 0

/-- `operator[](size_t index)` — unchecked read of buffer slot `index`. -/
def get (v : SimpleVector α) (i : Nat) : α := v.items i

/-- `At(size_t index)` — `if (index >= size_) throw std::out_of_range(...)`,
otherwise yields `items_[index]`.  Pure: the C++ member reads the state and
mutates nothing. -/
def At (v : SimpleVector α) (i : Nat) : Except String α :=
  if i ≥ v.size then Except.error ("Operation At: Out of range")
  else Except.ok (v.items i)

/-- `Clear() noexcept` — `size_ = 0;` only. -/
def Clear (v : SimpleVector α) : SimpleVector α :=
  { v with size := 0 }

/-- `Resize(size_t new_size)` — over capacity: `capacity_ =
max(new_size, size_ * 2)`, fresh default-constructed buffer, existing
`[0, size_)` moved in, `[size_, new_size)` default-filled; then (in both
cases) `size_ = new_size`. -/
def Resize (v : SimpleVector α) (new_size : Nat) : SimpleVector α :=
  if new_size > v.capacity then
    { isNull := false
      items := fun j => if j < v.size then v.items j else default
      size := new_size
      capacity := Nat.max new_size (v.size * 2) }
  else
    { v with size := new_size }

/-- `InsertInVector(ConstIterator pos, Type&& value)` — `position = pos -
cbegin()`.  With spare capacity the code calls
`std::move_backward(begin() + position, end(), end())`, whose destination
range `[position, size_)` equals its source range, so every move is a
self-move-assignment and NO element shifts (the buffer is unchanged).
Otherwise capacity becomes `capacity_ == 0 ? 1 : capacity_ + capacity_` and a
fresh default-constructed buffer receives `[0, position)` at `[0, position)`
and `[position, size_)` at `[position + 1, size_ + 1)` (these moves target a
fresh buffer and do shift).  In both branches slot `position` is then
assigned `value`, `size_++`, and `begin() + position` is returned (second
component: the returned iterator's offset). -/
def InsertInVector (v : SimpleVector α) (p : Nat) (x : α) : SimpleVector α × Nat :=
  if v.size < v.capacity then
    ({ v with
        items := fun j => if j = p then x else v.items j
        size := v.size + 1 }, p)
  else
    ({ isNull := false
       items := fun j =>
         if j < p then v.items j
         else if j = p then x
         else if j ≤ v.size then v.items (j - 1)
         else default
       size := v.size + 1
       capacity := if v.capacity = 0 then 1 else v.capacity + v.capacity }, p)

/-- `Insert(ConstIterator pos, value)` — delegates to `InsertInVector`. -/
def Insert (v : SimpleVector α) (p : Nat) (x : α) : SimpleVector α × Nat :=
  InsertInVector v p x

/-- `PushBack(item)` — `InsertInVector(end(), item)`, i.e. insertion at
offset `size_`. -/
def PushBack (v : SimpleVector α) (x : α) : SimpleVector α :=
  (InsertInVector v v.size x).1

/-- `PopBack() noexcept` — `size_--` (the debug `assert(size_ != 0)` compiles
out in release builds); `size_t` decrement, wrapping at zero. -/
def PopBack (v : SimpleVector α) : SimpleVector α :=
  { v with size := decWrap v.size }

/-- `Erase(ConstIterator pos)` — no validity check: `std::move(pos + 1, end(),
pos)` runs first; its source range `[p + 1, size_)` is inverted whenever
`p + 1 > size_` (so in particular on an empty container), which is undefined
behavior that faults before `size_--` is reached — modelled as `none`.
Otherwise it shifts `[p + 1, size_)` down to `[p, size_ - 1)`, then `size_--`
(`size_t` decrement), and returns `pos` (second component: the returned
iterator's offset). -/
def Erase (v : SimpleVector α) (p : Nat) : Option (SimpleVector α × Nat) :=
  if p + 1 ≤ v.size then
    some ({ v with
        items := fun j => if p ≤ j ∧ j + 1 < v.size then v.items (j + 1) else v.items j
        size := decWrap v.size }, p)
  else none

/-- `Reserve(size_t new_capacity)` — only when `new_capacity > capacity_`:
fresh default-constructed buffer of `new_capacity` slots, `[0, size_)` moved
in, `capacity_ = new_capacity`; otherwise nothing happens. -/
def Reserve (v : SimpleVector α) (n : Nat) : SimpleVector α :=
  if n > v.capacity then
    { isNull := false
      items := fun j => if j < v.size then v.items j else default
      size := v.size
      capacity := n }
  else v

/-- Copy constructor — `items_(new Type[other.capacity_])` (non-null even for
capacity `0`, slots default-constructed), copies `[0, other.size_)`, adopts
`other`'s size and capacity. -/
def mkCopy (v : SimpleVector α) : SimpleVector α :=
  { isNull := false
    items := fun j => if j < v.size then v.items j else default
    size := v.size
    capacity := v.capacity }

/-- Copy assignment (for distinct objects) — if `rhs.size_ <= capacity_`,
copies `rhs`'s elements into the existing buffer and sets `size_ = rhs.size_`;
otherwise builds a deep copy of `rhs` and swaps it in. -/
def copyAssign (t r : SimpleVector α) : SimpleVector α :=
  if r.size ≤ t.capacity then
    { t with
        items := fun j => if j < r.size then r.items j else t.items j
        size := r.size }
  else mkCopy r

/-- The element sequence a container denotes: its slots `[0, size)`. -/
def toList (v : SimpleVector α) : List α :=
  (List.range v.size).map v.items

/-- The loop of `std::equal(first1, last1, first2)` at position `i` with
`fuel` comparisons left: the first component is the result, the second the
exclusive upper bound of the positions read from BOTH ranges (the loop reads
`first1[i]` and `first2[i]` and stops at the first mismatch). -/
def stdEqualAux [DecidableEq α] (f g : Nat → α) (i : Nat) : Nat → Bool × Nat
  | 0 => (true, i)
  | fuel + 1 => if f i = g i then stdEqualAux f g (i + 1) fuel else (false, i + 1)

/-- `operator==` — `std::equal(lhs.begin(), lhs.end(), rhs.begin()) &&
lhs.GetSize() == rhs.GetSize()`; `std::equal` runs first, over `lhs.GetSize()`
positions of both ranges. -/
def vecEq [DecidableEq α] (l r : SimpleVector α) : Bool :=
  (stdEqualAux l.items r.items 0 l.size).1 && (l.GetSize == r.GetSize)

/-- Exclusive upper bound of the buffer positions `operator==` reads from each
of its two operands. -/
def vecEqReads [DecidableEq α] (l r : SimpleVector α) : Nat :=
  (stdEqualAux l.items r.items 0 l.size).2

/-- States reachable from the public constructors by public mutators invoked
with their documented preconditions satisfied (`PopBack` requires a non-empty
container, `Insert` a position between `begin()` and `end()`; for `Erase`,
the non-faulting outcome `Erase v p = some u` already entails the
dereferenceable-position precondition `p < size`).  The move constructor and
move assignment hand the
source's exact state to the target and reset the source to the
default-constructed state, so they add no new states and are omitted; `swap`
likewise only exchanges two existing states. -/
inductive Reachable {α : Type} [Inhabited α] : SimpleVector α → Prop
  | mk_default : Reachable mkDefault
  | mk_reserve (n : Nat) : Reachable (mkReserve n)
  | mk_fill (n : Nat) (x : α) : Reachable (mkFill n x)
  | mk_init (l : List α) : Reachable (mkInitList l)
  | copy_ctor {v : SimpleVector α} : Reachable v → Reachable (mkCopy v)
  | push {v : SimpleVector α} (x : α) : Reachable v → Reachable (PushBack v x)
  | pop {v : SimpleVector α} : Reachable v → v.size ≠ 0 → Reachable (PopBack v)
  | insert {v : SimpleVector α} (p : Nat) (x : α) :
      Reachable v → p ≤ v.size → Reachable (Insert v p x).1
  | erase {v : SimpleVector α} (p : Nat) {u : SimpleVector α × Nat} :
      Reachable v → Erase v p = some u → Reachable u.1
  | clear {v : SimpleVector α} : Reachable v → Reachable (Clear v)
  | resize {v : SimpleVector α} (n : Nat) : Reachable v → Reachable (Resize v n)
  | reserve {v : SimpleVector α} (n : Nat) : Reachable v → Reachable (Reserve v n)
  | assign {t r : SimpleVector α} :
      Reachable t → Reachable r → Reachable (copyAssign t r)

end SimpleVector

open SimpleVector

/-- Concrete container for witnesses: `{10, 20, 30}` with its capacity raised
to `5` by `Reserve`, so it has spare capacity. -/
def wspare : SimpleVector Int :=
  Reserve (mkInitList ([10, 20, 30] : List Int)) 5

/-- Concrete container for witnesses: `{1, 2, 3}`. -/
def w123 : SimpleVector Int :=
  mkInitList ([1, 2, 3] : List Int)

/-- Left operand of the `operator==` out-of-bounds read: `{1, 2}`. -/
def oobL : SimpleVector Int :=
  mkInitList ([1, 2] : List Int)

/-- Right operand of the `operator==` out-of-bounds read: `{1}` (one-slot
buffer). -/
def oobR : SimpleVector Int :=
  mkInitList ([1] : List Int)

/-- The container obtained from a default-constructed one by `k` consecutive
`PushBack(x)` calls. -/
def pushN {α : Type} [Inhabited α] (x : α) : Nat → SimpleVector α
  | 0 => mkDefault
  | k + 1 => PushBack (pushN x k) x

/-! ## Shared lemmas about single operations -/

theorem pushBack_size {α : Type} [Inhabited α] (v : SimpleVector α) (x : α) :
    (PushBack v x).size = v.size + 1 := by
  unfold PushBack InsertInVector
  split <;> rfl

theorem pushBack_capacity {α : Type} [Inhabited α] (v : SimpleVector α) (x : α) :
    (PushBack v x).capacity =
      if v.size < v.capacity then v.capacity
      else if v.capacity = 0 then 1 else v.capacity + v.capacity := by
  unfold PushBack InsertInVector
  split <;> simp_all

theorem pushN_size {α : Type} [Inhabited α] (x : α) (k : Nat) : (pushN x k).size = k := by
  induction k with
  | zero => rfl
  | succ n ih => rw [pushN, pushBack_size, ih]

theorem pushN_cap_inv {α : Type} [Inhabited α] (x : α) (k : Nat) (hk : 1 ≤ k) :
    (∃ j, (pushN x k).capacity = 2 ^ j) ∧
      k ≤ (pushN x k).capacity ∧ (pushN x k).capacity < 2 * k := by
  induction k with
  | zero => omega
  | succ n ih =>
    by_cases hn : n = 0
    · subst hn
      refine ⟨⟨0, ?_⟩, ?_, ?_⟩ <;> simp [pushN, pushBack_capacity, mkDefault]
    · obtain ⟨⟨j, hj⟩, hle, hlt⟩ := ih (by omega)
      rw [pushN, pushBack_capacity, pushN_size]
      by_cases hfull : n < (pushN x n).capacity
      · rw [if_pos hfull]
        exact ⟨⟨j, hj⟩, by omega, by omega⟩
      · rw [if_neg hfull, if_neg (by omega)]
        exact ⟨⟨j + 1, by rw [pow_succ]; omega⟩, by omega, by omega⟩

/-! ## Claim theorems -/

/-- C1 at the failing input `{10, 20, 30}` with capacity 5 (spare capacity),
offset 1, value 99: the spare-capacity branch runs
`std::move_backward(begin() + 1, end(), end())`, which moves every element
onto itself, so nothing shifts; the value write then destroys the old element
20, and the grown sequence is `{10, 99, 30, 0}` (the stale slot at the old
end is exposed) instead of the claimed `{10, 99, 20, 30}`. -/
theorem insert_spare_no_shift_loses_element :
    toList wspare = [10, 20, 30] ∧
    ((SimpleVector.Insert wspare 1 (99 : Int)).1).size = 4 ∧
    toList ((SimpleVector.Insert wspare 1 (99 : Int)).1) = [10, 99, 30, 0] :=
  ⟨by decide, by decide, by decide⟩


/-- C2 at the failing input `{10, 20, 30}` with capacity 5 (spare capacity),
position 1, value 9: `Insert` overwrites the element 20 without shifting
(C1), so the following `Erase` at position 1 removes the freshly inserted 9
and yields `{10, 30, 0}`, not the original `{10, 20, 30}` — the insert/erase
inverse law fails whenever the insertion position is below `size` and
capacity is spare. -/
theorem insert_then_erase_not_restored :
    toList wspare = [10, 20, 30] ∧
    Option.map (fun u => toList u.1)
        (Erase ((SimpleVector.Insert wspare 1 (9 : Int)).1) 1) =
      some [10, 30, 0] :=
  ⟨by decide, by decide⟩


/-- C6: `Resize(new_size)` with `new_size ≤ capacity` only sets `size`
(capacity, buffer and null-ness untouched, so slots newly exposed by a
within-capacity grow keep their stale values); the over-capacity path, by
contrast, default-fills every slot from the old `size` on. -/
theorem resize_within_capacity_frame {α : Type} [Inhabited α]
    (v : SimpleVector α) (n : Nat) (h : n ≤ v.capacity) :
    Resize v n = { v with size := n } ∧
    (∀ (u : SimpleVector α) (m : Nat), u.capacity < m →
      ∀ j, u.size ≤ j → (Resize u m).items j = (default : α)) := by
  constructor
  · unfold Resize
    rw [if_neg (by omega)]
  · intro u m hm j hj
    unfold Resize
    rw [if_pos hm]
    show (if j < u.size then u.items j else default) = default
    rw [if_neg (by omega)]

/-- Witness for the C6 theorem at `{1, 2, 3}` resized to 2 within capacity,
and resized over capacity to 5 (slot 4 default-filled). -/
theorem resize_within_capacity_frame_witness :
    Resize w123 2 = { w123 with size := 2 } ∧
    (Resize w123 5).items 4 = (0 : Int) := by
  obtain ⟨h1, h2⟩ := resize_within_capacity_frame w123 2 (by decide)
  exact ⟨h1, h2 w123 5 (by decide) 4 (by decide)⟩

/-- C7: `Reserve(new_cap)` with `new_cap ≤ capacity` is a no-op (the whole
state is unchanged); with `new_cap > capacity` it sets `capacity = new_cap`,
keeps `size`, and keeps the first `size` elements in value and order. -/
theorem reserve_spec {α : Type} [Inhabited α] (v : SimpleVector α) (n : Nat) :
    (n ≤ v.capacity → Reserve v n = v) ∧
    (v.capacity < n →
      (Reserve v n).size = v.size ∧ (Reserve v n).capacity = n ∧
      ∀ j, j < v.size → (Reserve v n).items j = v.items j) := by
  constructor
  · intro h
    unfold Reserve
    rw [if_neg (by omega)]
  · intro h
    unfold Reserve
    rw [if_pos h]
    refine ⟨rfl, rfl, ?_⟩
    intro j hj
    show (if j < v.size then v.items j else default) = v.items j
    rw [if_pos hj]

/-- Witness for the C7 theorem: `Reserve(2)` on `{1, 2, 3}` (capacity 3) is a
no-op; `Reserve(5)` keeps size 3, sets capacity 5 and keeps element 0. -/
theorem reserve_spec_witness :
    Reserve w123 2 = w123 ∧
    (Reserve w123 5).size = w123.size ∧ (Reserve w123 5).capacity = 5 ∧
    (Reserve w123 5).items 0 = w123.items 0 := by
  have ha := (reserve_spec w123 2).1 (by decide)
  obtain ⟨h1, h2, h3⟩ := (reserve_spec w123 5).2 (by decide)
  exact ⟨ha, h1, h2, h3 0 (by decide)⟩

/-- C8: `At(index)` yields the out-of-range error, with its descriptive
message, exactly when `index ≥ size`; for `index < size` it yields precisely
the element unchecked `operator[]` access yields.  It is a pure function of
the state, so the container is unchanged in every case. -/
theorem at_checked_access_spec {α : Type} [Inhabited α] (v : SimpleVector α) (i : Nat) :
    (At v i = Except.error ("Operation At: Out of range") ↔ v.size ≤ i) ∧
    (i < v.size → At v i = Except.ok (SimpleVector.get v i)) := by
  constructor
  · constructor
    · intro h
      by_contra hlt
      unfold At at h
      rw [if_neg (by omega)] at h
      simp at h
    · intro h
      unfold At
      rw [if_pos h]
  · intro h
    unfold At
    rw [if_neg (by omega)]
    rfl

/-- Witness for the C8 theorem on `{1, 2, 3}`: index 7 errors, index 0 agrees
with unchecked access. -/
theorem at_checked_access_spec_witness :
    At w123 7 = Except.error ("Operation At: Out of range") ∧
    At w123 0 = Except.ok (SimpleVector.get w123 0) :=
  ⟨(at_checked_access_spec w123 7).1.mpr (by decide),
   (at_checked_access_spec w123 0).2 (by decide)⟩

/-- C9: `Clear()` followed by `Resize(s)` for the original size `s` restores
the original element sequence exactly — the cleared elements are fully
recoverable, because `Clear` only zeroes `size` and the within-capacity
`Resize` path only sets it back.  `size ≤ capacity` is the container's
standing invariant. -/
theorem clear_then_resize_recovers {α : Type} [Inhabited α]
    (v : SimpleVector α) (h : v.size ≤ v.capacity) :
    (Resize (Clear v) v.size).size = v.size ∧
    toList (Resize (Clear v) v.size) = toList v := by
  have hv : Resize (Clear v) v.size = v := by
    show Resize { v with size := 0 } v.size = v
    unfold Resize
    have hc : ¬ v.size > ({ v with size := 0 } : SimpleVector α).capacity := by
      show ¬ v.size > v.capacity
      omega
    rw [if_neg hc]
  rw [hv]
  exact ⟨rfl, rfl⟩

/-- Witness for the C9 theorem at `{1, 2, 3}`. -/
theorem clear_then_resize_recovers_witness :
    (Resize (Clear w123) w123.size).size = w123.size ∧
    toList (Resize (Clear w123) w123.size) = toList w123 :=
  clear_then_resize_recovers w123 (by decide)

/-- C10 counterexample: the claimed post-state never exists.  `Erase(begin())`
on a default-constructed (empty, zero-capacity) container faults inside the
pre-decrement `std::move(pos + 1, end(), pos)` — the source range
`[items_ + 1, items_)` is inverted, undefined behavior — so no state with
`size = 2^64 - 1` is produced: the call yields no state at all. -/
theorem erase_on_empty_yields_no_state :
    ¬ ∃ u, Erase (mkDefault : SimpleVector Int) 0 = some u := by
  intro h
  obtain ⟨u, hu⟩ := h
  rw [show Erase (mkDefault : SimpleVector Int) 0 = none from rfl] at hu
  exact Option.noConfusion hu

/-- C10 amended: `Erase` indeed performs no emptiness or position-validity
check, but on an empty container the unchecked `std::move(pos + 1, end(),
pos)` that precedes `size_--` runs on an inverted iterator range (null-pointer
arithmetic, `items_ + 1 > items_`) — undefined behavior that faults before
any decrement — so the execution never reaches the wrapped
`size = 2^64 - 1` state. -/
theorem erase_on_empty_faults :
    Erase (mkDefault : SimpleVector Int) 0 = none := rfl


/-- C3 at the failing input: comparing `{1, 2}` with `{1}`, `operator==`
returns `false`, but its `std::equal` pass reads buffer positions `[0, 2)` of
BOTH operands — position 1 of the right operand is past its single valid
element (and past its one-slot allocation). -/
theorem vecEq_reads_past_shorter_rhs :
    vecEq oobL oobR = false ∧ vecEqReads oobL oobR = 2 ∧ oobR.size = 1 := by
  refine ⟨by decide, by decide, by decide⟩

/-- C4: from a default-constructed container, after `k ≥ 1` consecutive
push-backs the capacity is the least power of two that is `≥ k` (it is a
power of two, is `≥ k`, and is `≤` every power of two `≥ k`); and every
growth step from a full container (`size == capacity`) yields capacity 1
when the old capacity was 0 and exactly double otherwise. -/
theorem pushback_growth_doubling {α : Type} [Inhabited α] (x : α) (k : Nat) (hk : 1 ≤ k) :
    (∃ j, (pushN x k).capacity = 2 ^ j) ∧
    k ≤ (pushN x k).capacity ∧
    (∀ m, k ≤ 2 ^ m → (pushN x k).capacity ≤ 2 ^ m) ∧
    (∀ (v : SimpleVector α) (y : α), v.size = v.capacity →
      (PushBack v y).capacity = if v.capacity = 0 then 1 else v.capacity * 2) := by
  obtain ⟨⟨j, hj⟩, hle, hlt⟩ := pushN_cap_inv x k hk
  refine ⟨⟨j, hj⟩, hle, ?_, ?_⟩
  · intro m hm
    rw [hj]
    rw [hj] at hlt
    have h2 : 2 ^ j < 2 ^ (m + 1) := by
      calc 2 ^ j < 2 * k := hlt
        _ ≤ 2 * 2 ^ m := by omega
        _ = 2 ^ (m + 1) := by rw [pow_succ]; ring
    have hjm : j < m + 1 := by
      by_contra hc
      exact absurd h2 (not_lt.mpr (Nat.pow_le_pow_right (by omega) (by omega)))
    exact Nat.pow_le_pow_right (by omega) (by omega)
  · intro v y hvy
    rw [pushBack_capacity, if_neg (by omega)]
    split <;> omega

/-- Witness for the C4 theorem at `k = 3`: capacity is at least 3 and at most
`2^2 = 4`. -/
theorem pushback_growth_doubling_witness :
    3 ≤ (pushN (7 : Int) 3).capacity ∧ (pushN (7 : Int) 3).capacity ≤ 2 ^ 2 := by
  obtain ⟨h1, h2, h3, h4⟩ := pushback_growth_doubling (7 : Int) 3 (by decide)
  exact ⟨h2, h3 2 (by decide)⟩

/-- `InsertInVector` preserves `size ≤ capacity` and `null buffer → capacity
= 0`. -/
theorem insertInVector_preserves_inv {α : Type} [Inhabited α]
    (v : SimpleVector α) (p : Nat) (x : α)
    (h1 : v.size ≤ v.capacity) (h2 : v.isNull = true → v.capacity = 0) :
    ((InsertInVector v p x).1).size ≤ ((InsertInVector v p x).1).capacity ∧
      (((InsertInVector v p x).1).isNull = true → ((InsertInVector v p x).1).capacity = 0) := by
  unfold InsertInVector
  split
  next hlt => exact ⟨hlt, h2⟩
  next hge =>
    refine ⟨?_, fun hh => Bool.noConfusion hh⟩
    show v.size + 1 ≤ if v.capacity = 0 then 1 else v.capacity + v.capacity
    split
    next hc => omega
    next hc => omega

/-- C5 amended: every state reachable from the public constructors by public
operations invoked with their preconditions satisfied has `size ≤ capacity`,
and a null buffer forces `capacity = 0`.  (The converse of the null-ness
direction is false: see the counterexample theorem.) -/
theorem reachable_size_le_capacity {α : Type} [Inhabited α]
    {v : SimpleVector α} (h : Reachable v) :
    v.size ≤ v.capacity ∧ (v.isNull = true → v.capacity = 0) := by
  induction h with
  | mk_default => exact ⟨Nat.le_refl 0, fun _ => rfl⟩
  | mk_reserve n => exact ⟨Nat.zero_le n, fun hh => Bool.noConfusion hh⟩
  | mk_fill n y =>
    unfold mkFill
    split
    · exact ⟨Nat.le_refl 0, fun _ => rfl⟩
    · exact ⟨Nat.le_refl n, fun hh => Bool.noConfusion hh⟩
  | mk_init l =>
    unfold mkInitList
    split
    · exact ⟨Nat.le_refl 0, fun _ => rfl⟩
    · exact ⟨Nat.le_refl l.length, fun hh => Bool.noConfusion hh⟩
  | copy_ctor _ ih => exact ⟨ih.1, fun hh => Bool.noConfusion hh⟩
  | push y _ ih => exact insertInVector_preserves_inv _ _ y ih.1 ih.2
  | @pop u _ hne ih =>
    refine ⟨?_, ih.2⟩
    show decWrap u.size ≤ u.capacity
    unfold decWrap
    rw [if_neg hne]
    have := ih.1
    omega
  | insert p y _ hp ih => exact insertInVector_preserves_inv _ p y ih.1 ih.2
  | @erase s p u _ heq ih =>
    unfold Erase at heq
    split at heq
    next hle =>
      injection heq with heq2
      subst heq2
      refine ⟨?_, ih.2⟩
      show decWrap s.size ≤ s.capacity
      unfold decWrap
      rw [if_neg (by omega)]
      have := ih.1
      omega
    next => exact Option.noConfusion heq
  | clear _ ih => exact ⟨Nat.zero_le _, ih.2⟩
  | @resize u n _ ih =>
    unfold Resize
    split
    next hgt => exact ⟨Nat.le_max_left _ _, fun hh => Bool.noConfusion hh⟩
    next hng => exact ⟨show n ≤ u.capacity by omega, ih.2⟩
  | @reserve u n _ ih =>
    unfold Reserve
    split
    next hgt => exact ⟨show u.size ≤ n by have := ih.1; omega, fun hh => Bool.noConfusion hh⟩
    next hng => exact ih
  | @assign t r _ _ iht ihr =>
    unfold copyAssign
    split
    next hle => exact ⟨hle, iht.2⟩
    next hgt => exact ⟨ihr.1, fun hh => Bool.noConfusion hh⟩

/-- Witness for the C5 amended theorem at the reachable state
`SimpleVector(Reserve(4))`. -/
theorem reachable_size_le_capacity_witness :
    (mkReserve 4 : SimpleVector Int).size ≤ (mkReserve 4 : SimpleVector Int).capacity :=
  (reachable_size_le_capacity (Reachable.mk_reserve 4)).1

/-- C5 counterexample: the claimed invariant `capacity = 0 ↔ buffer absent`
is false at the reachable state `SimpleVector(Reserve(0))`, whose
`new Type[0]` buffer is non-null while its capacity is 0. -/
theorem capacity_zero_iff_null_fails :
    ¬ (∀ (v : SimpleVector Int), Reachable v →
        (v.size ≤ v.capacity ∧ (v.capacity = 0 ↔ v.isNull = true))) := by
  intro h
  have h2 := ((h (mkReserve 0) (Reachable.mk_reserve 0)).2).mp rfl
  exact Bool.noConfusion h2
